import Mathlib

/-!
Shallow embedding of `src/image.js` (class `Content`), the progressive
pixelation-to-clarity reveal effect.

The pure geometry of `Content.render` (the letterboxed target rectangle and
the reduced draw size) is modelled over `ℚ`: at the inputs of interest the
JavaScript float arithmetic is exact, `Math.round` is `⌊· + 1/2⌋` and
`Math.floor` is `⌊·⌋`.

The event-driven behaviour of the class — image load (`img.onload`), the
debounced resize handler, the single-shot scroll trigger (`onEnter`) and the
sequencer timers of `animatePixels` — is modelled as a step function on an
explicit controller state; an event that the code cannot receive in a state
(a listener not yet registered, a timer not pending) steps to `none`.
-/

namespace PixelImage

/-- `pxFactorValues = [.02, 0.04, 0.06, 0.09, 1.0]` (image.js line 24). -/
def pxFactorValues : List ℚ := [2/100, 4/100, 6/100, 9/100, 1]

/-- The length of the pixelation sequence (`pxFactorValues.length`, i.e. 5). -/
def seqLen : ℕ := pxFactorValues.length

/-- JavaScript `Math.round`: rounds half toward positive infinity. -/
def jsRound (q : ℚ) : ℤ := ⌊q + 1/2⌋

/-- The target rectangle computed at the top of `Content.render`
(image.js lines 150–160): `newX`, `newY`, `newWidth`, `newHeight`. -/
structure TargetRect where
  newX : ℚ
  newY : ℚ
  newWidth : ℚ
  newHeight : ℚ
deriving Repr, DecidableEq

/-- image.js lines 150–160: start from the full canvas `w × h`; if
`w / h > imgRatio` set `newHeight = Math.round(w / imgRatio)` (no offset is
written), otherwise set `newWidth = Math.round(h * imgRatio)` and
`newX = (w - newWidth) / 2`.  `newY` is never assigned. -/
def computeTarget (w h imgRat : ℚ) : TargetRect :=
  if w / h > imgRat then
    { newX := 0, newY := 0, newWidth := w,
      newHeight := (jsRound (w / imgRat) : ℚ) }
  else
    { newX := (w - (jsRound (h * imgRat) : ℚ)) / 2, newY := 0,
      newWidth := (jsRound (h * imgRat) : ℚ), newHeight := h }

/-- The reduced draw size of `Content.render` (image.js lines 166–167):
`scaledW = Math.floor(w * scale)`, `scaledH = Math.floor(h * scale)`. -/
def scaledDims (w h scale : ℚ) : ℤ × ℤ := (⌊w * scale⌋, ⌊h * scale⌋)

/-- A logged invocation of `Content.render`: the `pxIndex` it read, the scale
factor `pxFactorValues[pxIndex]` it used, and the canvas size it drew on. -/
structure RenderCall where
  index : ℕ
  scale : ℚ
  width : ℕ
  height : ℕ
deriving Repr, DecidableEq

/-- The mutable state of a `Content` instance, together with the registration
and timer facts that decide which events can be delivered:
`loaded` records that `img.onload` has run (it is where `initEvents`
registers every listener), `entered` that the single-shot scroll trigger has
fired, `seqTimer` that a sequencer timer from `animatePixels` is pending,
`debounce` that the resize debounce timer is pending.  `renders` is the
chronological log of `render` invocations. -/
structure ContentState where
  pxIndex : ℕ
  imgRat : Option ℚ
  loaded : Bool
  entered : Bool
  seqTimer : Bool
  debounce : Bool
  canvasW : ℕ
  canvasH : ℕ
  renders : List RenderCall
  inner : Option Unit
deriving Repr, DecidableEq

/-- The state right after the constructor body (image.js lines 31–56):
`pxIndex = 0`, nothing loaded, no listener registered, `DOM.inner = null`. -/
def initState : ContentState :=
  { pxIndex := 0, imgRat := none, loaded := false, entered := false,
    seqTimer := false, debounce := false, canvasW := 0, canvasH := 0,
    renders := [], inner := none }

/-- `Content.render` as a state update: log the call with the current
`pxIndex` and the scale it reads (`pxFactorValues[pxIndex]`). -/
def doRender (s : ContentState) : ContentState :=
  { s with renders := s.renders ++
      [{ index := s.pxIndex, scale := pxFactorValues.getD s.pxIndex 0,
         width := s.canvasW, height := s.canvasH }] }

/-- `Content.setCanvasSize` (image.js lines 134–139): copy the container's
current box onto the canvas. -/
def setCanvasSize (s : ContentState) (cw ch : ℕ) : ContentState :=
  { s with canvasW := cw, canvasH := ch }

/-- `Content.animatePixels` (image.js lines 190–198): if `pxIndex` is below
the sequence length, render and arm a 100 ms timer; otherwise do nothing. -/
def animatePixels (s : ContentState) : ContentState :=
  if s.pxIndex < seqLen then { doRender s with seqTimer := true } else s

/-- The asynchronous events a `Content` instance can receive.  `load` carries
the intrinsic image size and the container box, `debounceFire` the container
box at firing time. -/
inductive Ev where
  | load (imgW imgH : ℚ) (cw ch : ℕ)
  | resizeEvent
  | debounceFire (cw ch : ℕ)
  | enter
  | timerFire
deriving Repr, DecidableEq

/-- One event delivery.  `load` (image.js lines 58–66) computes the ratio,
sizes the canvas, renders once and registers the listeners; `resizeEvent`
(lines 80–87) clears any pending debounce timer and arms a new one;
`debounceFire` (lines 82–86) resizes the canvas, forces
`pxIndex = pxFactorValues.length - 1` and renders; `enter` (lines 91–99)
is the single-shot scroll trigger resetting `pxIndex` to 0 and starting
`animatePixels`; `timerFire` (lines 193–196) increments `pxIndex` and
re-enters `animatePixels`. -/
def step (s : ContentState) : Ev → Option ContentState
  | Ev.load imgW imgH cw ch =>
      if s.loaded then none
      else
        some { doRender (setCanvasSize { s with imgRat := some (imgW / imgH) } cw ch)
               with loaded := true }
  | Ev.resizeEvent =>
      if s.loaded then some { s with debounce := true } else none
  | Ev.debounceFire cw ch =>
      if s.debounce then
        some (doRender { setCanvasSize s cw ch with
                         debounce := false, pxIndex := seqLen - 1 })
      else none
  | Ev.enter =>
      if s.loaded && !s.entered then
        some (animatePixels { s with entered := true, pxIndex := 0 })
      else none
  | Ev.timerFire =>
      if s.seqTimer then
        some (animatePixels { s with seqTimer := false, pxIndex := s.pxIndex + 1 })
      else none

/-- Run a list of events from a state; `none` as soon as an event cannot be
delivered. -/
def run (s : ContentState) : List Ev → Option ContentState
  | [] => some s
  | e :: es =>
      match step s e with
      | some s' => run s' es
      | none => none

/-- The states a `Content` instance can actually be in. -/
inductive Reachable : ContentState → Prop where
  | init : Reachable initState
  | next {s : ContentState} {e : Ev} {s' : ContentState} :
      Reachable s → step s e = some s' → Reachable s'

/-- The bindings `initEvents` (image.js lines 74–128) registers, in order:
the resize listener, the `'top top'` single-shot scroll trigger, the parallax
timeline only when `DOM.inner` is non-null, and the `'top bottom'`
single-shot opacity trigger. -/
inductive Binding where
  | resize
  | viewportEntry
  | parallax
  | viewportBottom
deriving Repr, DecidableEq

/-- The list of bindings `initEvents` creates, as a function of `DOM.inner`
(the parallax branch is guarded by `if (this.DOM.inner)`). -/
def initEventsBindings (inner : Option Unit) : List Binding :=
  [Binding.resize, Binding.viewportEntry] ++
    (match inner with
     | some _ => [Binding.parallax]
     | none => []) ++
    [Binding.viewportBottom]

/-- The facts every reachable state satisfies: the clarity index never
exceeds the sequence length; a pending sequencer timer implies the index is
still below the length and the scroll trigger (hence the load) has fired;
listeners exist only after load; renders happen only after load; the image
ratio is computed at load; before load the state is exactly the constructor
state; `DOM.inner` stays null. -/
def Inv (s : ContentState) : Prop :=
  s.pxIndex ≤ seqLen ∧
  (s.seqTimer = true → s.pxIndex < seqLen) ∧
  (s.seqTimer = true → s.entered = true) ∧
  (s.entered = true → s.loaded = true) ∧
  (s.debounce = true → s.loaded = true) ∧
  (s.renders ≠ [] → s.loaded = true) ∧
  (s.loaded = true → s.imgRat ≠ none) ∧
  (s.loaded = false → s = initState) ∧
  s.inner = none

/-- A trace reaching the render at the last valid index: load, viewport
entry (render at index 0), then four timer firings (renders at indices
1, 2, 3, 4). -/
def C3trace : List Ev :=
  [Ev.load 800 400 400 200, Ev.enter, Ev.timerFire, Ev.timerFire, Ev.timerFire,
   Ev.timerFire]

/-- Claim C8 as an existential over the model's interleavings: from some
reachable state with a pending sequencer timer, the resize debounce fires;
then, after any further events that are not that timer's firing, the pending
sequencer timer fires and performs a render (with its stale index). -/
def StaleRenderScenario : Prop :=
  ∃ (s : ContentState) (cw ch : ℕ) (s' : ContentState) (es : List Ev)
    (s'' t : ContentState),
    Reachable s ∧ s.seqTimer = true ∧
    step s (Ev.debounceFire cw ch) = some s' ∧
    (∀ e ∈ es, e ≠ Ev.timerFire) ∧
    run s' es = some s'' ∧
    step s'' Ev.timerFire = some t ∧
    s''.renders.length < t.renders.length

/-! ### Basic facts about the embedded definitions -/

lemma seqLen_eq : seqLen = 5 := rfl

/-- `Math.round` is within `1/2` of its argument. -/
lemma jsRound_dist (q : ℚ) : |(jsRound q : ℚ) - q| ≤ 1/2 := by
  rw [abs_le]
  constructor
  · have h := Int.lt_floor_add_one (q + 1/2)
    simp only [jsRound]
    linarith
  · have h := Int.floor_le (q + 1/2)
    simp only [jsRound]
    linarith

/-! ### Claim C2: the letterboxing geometry of `render` -/

/-- Claim C2 as stated is false: for a 300×300 surface and a square image
(aspect ratio 1) the code leaves both offsets at zero, so it is not the case
that exactly one of `newX`, `newY` is non-zero. -/
theorem C2_counterexample :
    (computeTarget 300 300 1).newX = 0 ∧ (computeTarget 300 300 1).newY = 0 := by
  norm_num [computeTarget, jsRound]

/-- Claim C2 (amended): `newY` is always zero (the code never writes a
vertical offset); in the `w/h > ratio` branch `newX` is zero as well and the
height is aspect-correct within the `Math.round` half-unit; in the other
branch the width is aspect-correct within the half-unit and `newX` centers
it; and for the 300×300 surface with a 2:1 image the code yields
`newWidth = 600`, `newX = -150`. -/
theorem C2_letterbox (w h r : ℚ) :
    ((computeTarget w h r).newY = 0) ∧
    (w / h > r →
      (computeTarget w h r).newX = 0 ∧ (computeTarget w h r).newWidth = w ∧
      |(computeTarget w h r).newHeight - w / r| ≤ 1/2) ∧
    (¬(w / h > r) →
      (computeTarget w h r).newHeight = h ∧
      |(computeTarget w h r).newWidth - h * r| ≤ 1/2 ∧
      (computeTarget w h r).newX = (w - (computeTarget w h r).newWidth) / 2) ∧
    computeTarget 300 300 2 =
      { newX := -150, newY := 0, newWidth := 600, newHeight := 300 } := by
  refine ⟨?_, ?_, ?_, by norm_num [computeTarget, jsRound]⟩
  · unfold computeTarget
    split <;> rfl
  · intro hgt
    rw [computeTarget, if_pos hgt]
    exact ⟨rfl, rfl, jsRound_dist _⟩
  · intro hle
    rw [computeTarget, if_neg hle]
    exact ⟨rfl, jsRound_dist _, rfl⟩

/-! ### Claim C4: the reduced draw size at full scale -/

/-- Claim C4 as stated is false: at the last clarity index (scale `1.0`) on a
400×100 surface with a 2:1 image, the reduced draw size is the full surface
`(400, 100)` while the letterboxed target is 400×200 — a mismatch of 100,
far beyond floor/round rounding. -/
theorem C4_counterexample :
    scaledDims 400 100 (pxFactorValues.getD (seqLen - 1) 0) = (400, 100) ∧
    (computeTarget 400 100 2).newHeight = 200 ∧
    ¬(|((scaledDims 400 100 (pxFactorValues.getD (seqLen - 1) 0)).2 : ℚ) -
        (computeTarget 400 100 2).newHeight| ≤ 1) := by
  refine ⟨?_, ?_, ?_⟩ <;>
    norm_num [scaledDims, computeTarget, jsRound, pxFactorValues, seqLen]

/-- Claim C4 (amended): at the last clarity index the scale is `1.0` and the
reduced draw size is exactly the full surface `(w, h)`; it coincides with the
letterboxed target rectangle — so the double-draw degenerates to an ordinary
clear render — precisely when the rounded aspect-correct dimension equals the
corresponding surface dimension (the surface aspect ratio matches the image
ratio within rounding), not for every surface size and aspect ratio. -/
theorem C4_fullScale (w h : ℕ) (r : ℚ) :
    pxFactorValues.getD (seqLen - 1) 0 = 1 ∧
    scaledDims w h (pxFactorValues.getD (seqLen - 1) 0) = ((w : ℤ), (h : ℤ)) ∧
    (computeTarget w h r =
        { newX := 0, newY := 0, newWidth := (w : ℚ), newHeight := (h : ℚ) } ↔
      (((w : ℚ) / h > r ∧ jsRound ((w : ℚ) / r) = (h : ℤ)) ∨
       (¬((w : ℚ) / h > r) ∧ jsRound ((h : ℚ) * r) = (w : ℤ)))) := by
  refine ⟨rfl, ?_, ?_⟩
  · show ((⌊(w : ℚ) * 1⌋ : ℤ), (⌊(h : ℚ) * 1⌋ : ℤ)) = ((w : ℤ), (h : ℤ))
    norm_num
  · unfold computeTarget
    split
    · next hgt =>
      constructor
      · intro he
        have hh : ((jsRound ((w : ℚ) / r) : ℤ) : ℚ) = ((h : ℕ) : ℚ) :=
          congrArg TargetRect.newHeight he
        exact Or.inl ⟨hgt, by exact_mod_cast hh⟩
      · rintro (⟨-, hr⟩ | ⟨hn, -⟩)
        · have hh : ((jsRound ((w : ℚ) / r) : ℤ) : ℚ) = ((h : ℕ) : ℚ) := by
            exact_mod_cast hr
          rw [hh]
        · exact absurd hgt hn
    · next hle =>
      constructor
      · intro he
        have hw : ((jsRound ((h : ℚ) * r) : ℤ) : ℚ) = ((w : ℕ) : ℚ) :=
          congrArg TargetRect.newWidth he
        exact Or.inr ⟨hle, by exact_mod_cast hw⟩
      · rintro (⟨hg, -⟩ | ⟨-, hr⟩)
        · exact absurd hg hle
        · have hw : ((jsRound ((h : ℚ) * r) : ℤ) : ℚ) = ((w : ℕ) : ℚ) := by
            exact_mod_cast hr
          rw [TargetRect.mk.injEq]
          exact ⟨by rw [hw, sub_self, zero_div], rfl, hw, rfl⟩

/-! ### Characterizing each event delivery -/

lemma load_eq {s s' : ContentState} {imgW imgH : ℚ} {cw ch : ℕ}
    (h : step s (Ev.load imgW imgH cw ch) = some s') :
    s.loaded = false ∧
    s' = { doRender (setCanvasSize { s with imgRat := some (imgW / imgH) } cw ch)
           with loaded := true } := by
  simp only [step] at h
  split at h
  · exact absurd h (by simp)
  · next hc => exact ⟨by simp_all, (Option.some.inj h).symm⟩

lemma resizeEvent_eq {s s' : ContentState}
    (h : step s Ev.resizeEvent = some s') :
    s.loaded = true ∧ s' = { s with debounce := true } := by
  simp only [step] at h
  split at h
  · next hc => exact ⟨hc, (Option.some.inj h).symm⟩
  · exact absurd h (by simp)

lemma debounceFire_eq {s s' : ContentState} {cw ch : ℕ}
    (h : step s (Ev.debounceFire cw ch) = some s') :
    s.debounce = true ∧
    s' = doRender { setCanvasSize s cw ch with
                    debounce := false, pxIndex := seqLen - 1 } := by
  simp only [step] at h
  split at h
  · next hc => exact ⟨hc, (Option.some.inj h).symm⟩
  · exact absurd h (by simp)

lemma enter_eq {s s' : ContentState} (h : step s Ev.enter = some s') :
    s.loaded = true ∧ s.entered = false ∧
    s' = animatePixels { s with entered := true, pxIndex := 0 } := by
  simp only [step] at h
  split at h
  · next hc =>
    rw [Bool.and_eq_true, Bool.not_eq_true'] at hc
    exact ⟨hc.1, hc.2, (Option.some.inj h).symm⟩
  · exact absurd h (by simp)

lemma timerFire_eq {s s' : ContentState} (h : step s Ev.timerFire = some s') :
    s.seqTimer = true ∧
    s' = animatePixels { s with seqTimer := false, pxIndex := s.pxIndex + 1 } := by
  simp only [step] at h
  split at h
  · next hc => exact ⟨hc, (Option.some.inj h).symm⟩
  · exact absurd h (by simp)

lemma animatePixels_lt {s : ContentState} (h : s.pxIndex < seqLen) :
    animatePixels s = { doRender s with seqTimer := true } := by
  rw [animatePixels, if_pos h]

lemma animatePixels_ge {s : ContentState} (h : ¬s.pxIndex < seqLen) :
    animatePixels s = s := by
  rw [animatePixels, if_neg h]

/-! ### The inductive invariant of reachable controller states -/

lemma inv_init : Inv initState :=
  ⟨Nat.zero_le _, fun hf => Bool.noConfusion hf, fun hf => Bool.noConfusion hf,
   fun hf => Bool.noConfusion hf, fun hf => Bool.noConfusion hf,
   fun hne => absurd rfl hne, fun hf => Bool.noConfusion hf, fun _ => rfl, rfl⟩

lemma inv_step {s : ContentState} {e : Ev} {s' : ContentState}
    (hs : Inv s) (h : step s e = some s') : Inv s' := by
  obtain ⟨h1, h2, h3, h4, h5, h6, h7, h8, h9⟩ := hs
  cases e with
  | load imgW imgH cw ch =>
    obtain ⟨hl, rfl⟩ := load_eq h
    have hinit := h8 hl
    subst hinit
    exact ⟨Nat.zero_le _, fun hf => Bool.noConfusion hf,
      fun hf => Bool.noConfusion hf, fun _ => rfl, fun _ => rfl, fun _ => rfl,
      fun _ => Option.some_ne_none _, fun hf => Bool.noConfusion hf, rfl⟩
  | resizeEvent =>
    obtain ⟨hl, rfl⟩ := resizeEvent_eq h
    exact ⟨h1, h2, h3, h4, fun _ => hl, fun _ => hl, h7,
      fun hf => Bool.noConfusion (hl.symm.trans hf), h9⟩
  | debounceFire cw ch =>
    obtain ⟨hd, rfl⟩ := debounceFire_eq h
    have hl := h5 hd
    exact ⟨Nat.sub_le _ _, fun _ => by show seqLen - 1 < seqLen; decide,
      fun ht => h3 ht, fun he => h4 he,
      fun _ => hl, fun _ => hl, fun _ => h7 hl,
      fun hf => Bool.noConfusion (hl.symm.trans hf), h9⟩
  | enter =>
    obtain ⟨hl, he, rfl⟩ := enter_eq h
    have hap : animatePixels { s with entered := true, pxIndex := 0 } =
        { doRender { s with entered := true, pxIndex := 0 } with seqTimer := true } :=
      animatePixels_lt (by show (0 : ℕ) < seqLen; decide)
    rw [hap]
    exact ⟨Nat.zero_le _, fun _ => by show (0 : ℕ) < seqLen; decide,
      fun _ => rfl, fun _ => hl,
      fun hd => h5 hd, fun _ => hl, fun _ => h7 hl,
      fun hf => Bool.noConfusion (hl.symm.trans hf), h9⟩
  | timerFire =>
    obtain ⟨ht, rfl⟩ := timerFire_eq h
    have hlt := h2 ht
    have hent := h3 ht
    have hl := h4 hent
    by_cases hcase : s.pxIndex + 1 < seqLen
    · have hap : animatePixels { s with seqTimer := false, pxIndex := s.pxIndex + 1 } =
          { doRender { s with seqTimer := false, pxIndex := s.pxIndex + 1 }
            with seqTimer := true } :=
        animatePixels_lt hcase
      rw [hap]
      exact ⟨le_of_lt hcase, fun _ => hcase, fun _ => hent, fun _ => hl,
        fun hd => h5 hd, fun _ => hl, fun _ => h7 hl,
        fun hf => Bool.noConfusion (hl.symm.trans hf), h9⟩
    · have hap : animatePixels { s with seqTimer := false, pxIndex := s.pxIndex + 1 } =
          { s with seqTimer := false, pxIndex := s.pxIndex + 1 } :=
        animatePixels_ge hcase
      rw [hap]
      exact ⟨Nat.succ_le_of_lt hlt, fun hf => Bool.noConfusion hf,
        fun hf => Bool.noConfusion hf, fun _ => hl, fun hd => h5 hd,
        fun hne => h6 hne, fun _ => h7 hl,
        fun hf => Bool.noConfusion (hl.symm.trans hf), h9⟩

/-- Every reachable state satisfies the invariant. -/
lemma reachable_inv {s : ContentState} (h : Reachable s) : Inv s := by
  induction h with
  | init => exact inv_init
  | next _ hstep ih => exact inv_step ih hstep

/-! ### Effect lemmas for single event deliveries -/

lemma animatePixels_pxIndex (s : ContentState) :
    (animatePixels s).pxIndex = s.pxIndex := by
  unfold animatePixels
  split
  · rfl
  · rfl

lemma animatePixels_seqTimer {s : ContentState} (h : s.seqTimer = true) :
    (animatePixels s).seqTimer = true := by
  unfold animatePixels
  split
  · rfl
  · exact h

/-- The effect of the scroll trigger: index 0, one render at index 0 on the
current canvas, a sequencer timer armed. -/
lemma enter_effect {u t : ContentState} (h : step u Ev.enter = some t) :
    t.pxIndex = 0 ∧ t.seqTimer = true ∧ t.entered = true ∧
    t.renders = u.renders ++
      [{ index := 0, scale := pxFactorValues.getD 0 0,
         width := u.canvasW, height := u.canvasH }] := by
  obtain ⟨hl, he, rfl⟩ := enter_eq h
  have h0 : ({ u with entered := true, pxIndex := 0 } : ContentState).pxIndex <
      seqLen := by
    show (0 : ℕ) < seqLen
    decide
  rw [animatePixels_lt h0]
  exact ⟨rfl, rfl, rfl, rfl⟩

/-- A sequencer timer firing from an index whose successor is still a valid
index: it renders at the new index and re-arms. -/
lemma timerFire_mid {u t : ContentState} (h : step u Ev.timerFire = some t)
    (hlt : u.pxIndex + 1 < seqLen) :
    t.pxIndex = u.pxIndex + 1 ∧ t.seqTimer = true ∧
    t.renders = u.renders ++
      [{ index := u.pxIndex + 1, scale := pxFactorValues.getD (u.pxIndex + 1) 0,
         width := u.canvasW, height := u.canvasH }] := by
  obtain ⟨ht, rfl⟩ := timerFire_eq h
  have hlt' : ({ u with seqTimer := false, pxIndex := u.pxIndex + 1 } :
      ContentState).pxIndex < seqLen := hlt
  rw [animatePixels_lt hlt']
  exact ⟨rfl, rfl, rfl⟩

/-- A sequencer timer firing from the last valid index: the index reaches the
sequence length, nothing is rendered, no timer is armed. -/
lemma timerFire_at_last {u t : ContentState} (hp : u.pxIndex = seqLen - 1)
    (h : step u Ev.timerFire = some t) :
    t.pxIndex = seqLen ∧ t.seqTimer = false ∧ t.renders = u.renders := by
  obtain ⟨ht, rfl⟩ := timerFire_eq h
  have hnl : ¬(({ u with seqTimer := false, pxIndex := u.pxIndex + 1 } :
      ContentState).pxIndex < seqLen) := by
    show ¬(u.pxIndex + 1 < seqLen)
    rw [hp]
    decide
  rw [animatePixels_ge hnl]
  refine ⟨?_, rfl, rfl⟩
  show u.pxIndex + 1 = seqLen
  rw [hp]
  decide

/-- The effect of the debounced resize handler's body: canvas resized from
the container, index forced to the last valid one, exactly one render. -/
lemma debounceFire_effect {u t : ContentState} {cw ch : ℕ}
    (h : step u (Ev.debounceFire cw ch) = some t) :
    t.pxIndex = seqLen - 1 ∧ t.canvasW = cw ∧ t.canvasH = ch ∧
    t.seqTimer = u.seqTimer ∧ t.entered = u.entered ∧ t.loaded = u.loaded ∧
    t.debounce = false ∧
    t.renders = u.renders ++
      [{ index := seqLen - 1, scale := pxFactorValues.getD (seqLen - 1) 0,
         width := cw, height := ch }] := by
  obtain ⟨hd, rfl⟩ := debounceFire_eq h
  exact ⟨rfl, rfl, rfl, rfl, rfl, rfl, rfl, rfl⟩

/-! ### Claim C1: the render performed when the image finishes loading -/

/-- Claim C1 as stated is false: at `img.onload` the controller's `pxIndex`
is still its constructor value 0, so the single initial render uses
`pxFactorValues[0] = 0.02` (full pixelation), not the final clarity level
`1.0` at the last index. Shown at a concrete load event. -/
theorem C1_counterexample :
    ((step initState (Ev.load 800 400 300 300)).map
        (fun s => s.renders.map (fun rc => (rc.index, rc.scale)))) =
      some [((0 : ℕ), (2/100 : ℚ))] ∧
    (0 : ℕ) ≠ seqLen - 1 ∧ (2/100 : ℚ) ≠ 1 := by
  refine ⟨rfl, by decide, by norm_num⟩

/-- Claim C1 (amended): after the source image finishes loading, the
controller has performed exactly one render, and that render used clarity
index 0 (scale `pxFactorValues[0] = 0.02`, the first and most pixelated
level of the sequence), not the final level; before the load event the
controller is still exactly in its constructor state. -/
theorem C1_initialRenderPixelated :
    (∀ s, Reachable s → s.loaded = false → s = initState) ∧
    (∀ imgW imgH : ℚ, ∀ cw ch : ℕ, ∀ s' : ContentState,
      step initState (Ev.load imgW imgH cw ch) = some s' →
      s'.pxIndex = 0 ∧
      s'.renders = [{ index := 0, scale := pxFactorValues.getD 0 0,
                      width := cw, height := ch }]) ∧
    pxFactorValues.getD 0 0 = 2/100 ∧
    pxFactorValues.getD (seqLen - 1) 0 = 1 := by
  refine ⟨?_, ?_, rfl, rfl⟩
  · intro s hs hl
    obtain ⟨-, -, -, -, -, -, -, i8, -⟩ := reachable_inv hs
    exact i8 hl
  · intro imgW imgH cw ch s' h
    obtain ⟨hl, rfl⟩ := load_eq h
    exact ⟨rfl, rfl⟩

/-! ### Claim C3: what happens at the end of the step sequence -/

/-- Claim C3 as stated is false: right after the render at the last valid
index (index 4, the last render of the trace), a sequencer timer IS armed —
`animatePixels` schedules `setTimeout` whenever it renders, including at the
last valid index. -/
theorem C3_counterexample :
    ((run initState C3trace).map
        (fun s => (s.pxIndex, s.seqTimer,
                   (s.renders.map RenderCall.index).getLast?))) =
      some (seqLen - 1, true, some (seqLen - 1)) := by
  rfl

/-- Claim C3 (amended): the sequencer stops only once the index reaches the
sequence length: the render at the last valid index still arms one more
timer (any firing that lands on a valid index arms one), and it is that
timer's firing which moves the index to the sequence length, renders
nothing, and arms no further timer. -/
theorem C3_doneAtSeqLen :
    (∀ s s' : ContentState, step s Ev.timerFire = some s' →
      s.pxIndex = seqLen - 1 →
      s'.pxIndex = seqLen ∧ s'.seqTimer = false ∧ s'.renders = s.renders) ∧
    (∀ s s' : ContentState, step s Ev.timerFire = some s' →
      s.pxIndex + 1 < seqLen → s'.seqTimer = true) := by
  constructor
  · intro s s' h hp
    exact timerFire_at_last hp h
  · intro s s' h hlt
    exact (timerFire_mid h hlt).2.1

/-! ### Claim C5: monotone advance of the clarity index -/

/-- Claim C5: the viewport-entry trigger sets the index to 0 and renders at
index 0 arming a timer; every timer firing increments the index by exactly
1; a firing that lands on a valid index renders there and arms the next
timer (the timer is armed in the same step as the render); a firing that
reaches the sequence length renders nothing and arms nothing, so no further
renders are scheduled automatically. -/
theorem C5_sequencerMonotone :
    (∀ s s' : ContentState, step s Ev.enter = some s' →
      s'.pxIndex = 0 ∧ s'.seqTimer = true ∧
      s'.renders = s.renders ++
        [{ index := 0, scale := pxFactorValues.getD 0 0,
           width := s.canvasW, height := s.canvasH }]) ∧
    (∀ s s' : ContentState, step s Ev.timerFire = some s' →
      s'.pxIndex = s.pxIndex + 1) ∧
    (∀ s s' : ContentState, step s Ev.timerFire = some s' →
      s.pxIndex + 1 < seqLen →
      s'.seqTimer = true ∧
      s'.renders = s.renders ++
        [{ index := s.pxIndex + 1, scale := pxFactorValues.getD (s.pxIndex + 1) 0,
           width := s.canvasW, height := s.canvasH }]) ∧
    (∀ s s' : ContentState, step s Ev.timerFire = some s' →
      seqLen ≤ s.pxIndex + 1 →
      s'.seqTimer = false ∧ s'.renders = s.renders) := by
  refine ⟨?_, ?_, ?_, ?_⟩
  · intro s s' h
    obtain ⟨h0, h1, -, h3⟩ := enter_effect h
    exact ⟨h0, h1, h3⟩
  · intro s s' h
    obtain ⟨ht, rfl⟩ := timerFire_eq h
    rw [animatePixels_pxIndex]
  · intro s s' h hlt
    obtain ⟨-, h1, h2⟩ := timerFire_mid h hlt
    exact ⟨h1, h2⟩
  · intro s s' h hge
    obtain ⟨ht, rfl⟩ := timerFire_eq h
    have hnl : ¬(({ s with seqTimer := false, pxIndex := s.pxIndex + 1 } :
        ContentState).pxIndex < seqLen) := not_lt.mpr hge
    rw [animatePixels_ge hnl]
    exact ⟨rfl, rfl⟩

/-! ### Claim C6: the clarity index stays within bounds -/

/-- Claim C6: in every reachable state `pxIndex ≤ seqLen` (the lower bound 0
holds by the index being a natural number); construction and viewport entry
set it to 0, the resize handler's firing to `seqLen - 1`, each timer firing
increments it by exactly 1, and a firing from a reachable state never takes
it past the length nor renders once the length is reached. -/
theorem C6_indexInvariant :
    initState.pxIndex = 0 ∧
    (∀ s : ContentState, Reachable s → s.pxIndex ≤ seqLen) ∧
    (∀ s s' : ContentState, step s Ev.enter = some s' → s'.pxIndex = 0) ∧
    (∀ s : ContentState, ∀ cw ch : ℕ, ∀ s' : ContentState,
      step s (Ev.debounceFire cw ch) = some s' → s'.pxIndex = seqLen - 1) ∧
    (∀ s s' : ContentState, step s Ev.timerFire = some s' →
      s'.pxIndex = s.pxIndex + 1) ∧
    (∀ s s' : ContentState, Reachable s → step s Ev.timerFire = some s' →
      s'.pxIndex ≤ seqLen ∧ (s'.pxIndex = seqLen → s'.renders = s.renders)) := by
  refine ⟨rfl, ?_, ?_, ?_, ?_, ?_⟩
  · intro s hs
    exact (reachable_inv hs).1
  · intro s s' h
    exact (enter_effect h).1
  · intro s cw ch s' h
    exact (debounceFire_effect h).1
  · intro s s' h
    obtain ⟨ht, rfl⟩ := timerFire_eq h
    rw [animatePixels_pxIndex]
  · intro s s' hs h
    obtain ⟨-, i2, -, -, -, -, -, -, -⟩ := reachable_inv hs
    obtain ⟨ht, heq⟩ := timerFire_eq h
    have hlt := i2 ht
    constructor
    · rw [heq, animatePixels_pxIndex]
      exact Nat.succ_le_of_lt hlt
    · intro hlen
      rcases Nat.lt_or_ge (s.pxIndex + 1) seqLen with hc | hc
      · rw [(timerFire_mid h hc).1] at hlen
        exact absurd hlen (Nat.ne_of_lt hc)
      · subst heq
        have hnl : ¬(({ s with seqTimer := false, pxIndex := s.pxIndex + 1 } :
            ContentState).pxIndex < seqLen) := not_lt.mpr hc
        rw [animatePixels_ge hnl]

/-! ### Claim C7: the debounced resize handler's firing -/

/-- Claim C7: a resize event replaces any pending debounce timer with a
fresh one and by itself changes nothing else (no render, no index change);
when the debounce timer fires, the handler recomputes the canvas size from
the container, forces the index to `seqLen - 1`, and performs exactly one
render (at the last valid index, on the new canvas), whatever the prior
state. -/
theorem C7_resizeHandler :
    (∀ s s' : ContentState, step s Ev.resizeEvent = some s' →
      s'.debounce = true ∧ s'.renders = s.renders ∧
      s'.pxIndex = s.pxIndex ∧ s'.seqTimer = s.seqTimer ∧
      s'.canvasW = s.canvasW ∧ s'.canvasH = s.canvasH) ∧
    (∀ s : ContentState, ∀ cw ch : ℕ, ∀ s' : ContentState,
      step s (Ev.debounceFire cw ch) = some s' →
      s'.canvasW = cw ∧ s'.canvasH = ch ∧ s'.pxIndex = seqLen - 1 ∧
      s'.renders = s.renders ++
        [{ index := seqLen - 1, scale := pxFactorValues.getD (seqLen - 1) 0,
           width := cw, height := ch }]) := by
  constructor
  · intro s s' h
    obtain ⟨hl, rfl⟩ := resizeEvent_eq h
    exact ⟨rfl, rfl, rfl, rfl, rfl, rfl⟩
  · intro s cw ch s' h
    obtain ⟨h1, h2, h3, -, -, -, -, h8⟩ := debounceFire_effect h
    exact ⟨h2, h3, h1, h8⟩

/-! ### Claim C8: a stale sequencer timer firing after a resize -/

/-- Between the resize firing and the pending timer's firing the index stays
at `seqLen - 1` (only resize events, debounce firings — which reset it to
`seqLen - 1` — or nothing can be delivered: the instance is loaded and the
single-shot scroll trigger already spent). -/
lemma run_noTimer {es : List Ev} (hes : ∀ e ∈ es, e ≠ Ev.timerFire) :
    ∀ {u u' : ContentState}, run u es = some u' →
    u.pxIndex = seqLen - 1 → u.entered = true → u.loaded = true →
    u'.pxIndex = seqLen - 1 ∧ u'.entered = true ∧ u'.loaded = true := by
  induction es with
  | nil =>
    intro u u' h hp hent hl
    rw [run] at h
    cases h
    exact ⟨hp, hent, hl⟩
  | cons e es ih =>
    intro u u' h hp hent hl
    rw [run] at h
    cases he : step u e with
    | none => rw [he] at h; cases h
    | some v =>
      rw [he] at h
      have hes' : ∀ x ∈ es, x ≠ Ev.timerFire :=
        fun x hx => hes x (List.mem_cons_of_mem e hx)
      cases e with
      | load imgW imgH cw ch =>
        obtain ⟨hlf, -⟩ := load_eq he
        exact Bool.noConfusion (hl.symm.trans hlf)
      | resizeEvent =>
        obtain ⟨-, rfl⟩ := resizeEvent_eq he
        exact ih hes' h hp hent hl
      | debounceFire cw ch =>
        obtain ⟨-, rfl⟩ := debounceFire_eq he
        exact ih hes' h rfl hent hl
      | enter =>
        obtain ⟨-, henf, -⟩ := enter_eq he
        exact Bool.noConfusion (hent.symm.trans henf)
      | timerFire =>
        exact absurd rfl (hes _ (List.mem_cons_self _ _))

/-- Claim C8 as stated is false: whenever the resize debounce fires while a
sequencer timer is pending, the index is forced to `seqLen - 1` and stays
there until the pending timer fires, so that firing moves the index to
`seqLen` and `animatePixels` renders nothing — no interleaving lets the
stale timer call `render`. (The timer does still fire; see the amended
theorem.) -/
theorem C8_counterexample : StaleRenderScenario = False := by
  refine eq_false ?_
  rintro ⟨s, cw, ch, s', es, s'', t, hreach, htm, hdb, hes, hrun, hfire, hgrow⟩
  obtain ⟨-, -, i3, i4, -, -, -, -, -⟩ := reachable_inv hreach
  have hent := i3 htm
  have hl := i4 hent
  obtain ⟨hd, rfl⟩ := debounceFire_eq hdb
  obtain ⟨hp'', hent'', hl''⟩ := run_noTimer hes hrun rfl hent hl
  obtain ⟨hlen, -, hr⟩ := timerFire_at_last hp'' hfire
  rw [hr] at hgrow
  exact absurd hgrow (lt_irrefl _)

/-- Claim C8 (amended): sequencer timers are indeed never cancelled — no
event other than its own firing clears a pending sequencer timer (only the
resize debounce timer is ever cleared, by the resize listener) — and the
pending timer does still fire after the resize handler's firing; but that
firing performs no render at a stale index: it merely moves the index from
`seqLen - 1` (where the resize put it) to `seqLen` and stops. -/
theorem C8_timerNotCancelled :
    (∀ (s : ContentState) (e : Ev) (s' : ContentState),
      step s e = some s' → s.seqTimer = true → e ≠ Ev.timerFire →
      s'.seqTimer = true) ∧
    (∀ (s : ContentState) (cw ch : ℕ) (s' t : ContentState),
      s.seqTimer = true →
      step s (Ev.debounceFire cw ch) = some s' →
      step s' Ev.timerFire = some t →
      s'.seqTimer = true ∧ t.pxIndex = seqLen ∧ t.seqTimer = false ∧
      t.renders = s'.renders) := by
  constructor
  · intro s e s' h htm hne
    cases e with
    | load imgW imgH cw ch =>
      obtain ⟨-, rfl⟩ := load_eq h
      exact htm
    | resizeEvent =>
      obtain ⟨-, rfl⟩ := resizeEvent_eq h
      exact htm
    | debounceFire cw ch =>
      obtain ⟨-, rfl⟩ := debounceFire_eq h
      exact htm
    | enter =>
      obtain ⟨-, -, rfl⟩ := enter_eq h
      exact animatePixels_seqTimer htm
    | timerFire =>
      exact absurd rfl hne
  · intro s cw ch s' t htm hdb hfire
    obtain ⟨hp, -, -, hseq, -, -, -, -⟩ := debounceFire_effect hdb
    obtain ⟨hlen, hts, hr⟩ := timerFire_at_last hp hfire
    exact ⟨hseq.trans htm, hlen, hts, hr⟩

/-! ### Claim C9: no render before the image has loaded -/

/-- Claim C9: renders happen only at or after the load-success callback —
a reachable state that has not loaded has an empty render log (it is still
the constructor state), and any reachable state with a non-empty render log
is loaded and has its aspect ratio computed, so an undecoded image (with the
ratio still unset) is never rendered. -/
theorem C9_renderRequiresLoad :
    (∀ s : ContentState, Reachable s → s.loaded = false → s.renders = []) ∧
    (∀ s : ContentState, Reachable s → s.renders ≠ [] →
      s.loaded = true ∧ s.imgRat ≠ none) := by
  constructor
  · intro s hs hl
    obtain ⟨-, -, -, -, -, -, -, i8, -⟩ := reachable_inv hs
    rw [i8 hl]
    rfl
  · intro s hs hne
    obtain ⟨-, -, -, -, -, i6, i7, -, -⟩ := reachable_inv hs
    exact ⟨i6 hne, i7 (i6 hne)⟩

/-! ### Claim C10: the parallax binding is never registered -/

/-- Claim C10: `DOM.inner` is initialized to null and no operation ever
assigns it, so in every reachable state it is still null; consequently
`initEvents` registers exactly the resize, viewport-entry and
viewport-bottom bindings, and never the parallax binding. -/
theorem C10_innerAlwaysNone :
    (∀ s : ContentState, Reachable s → s.inner = none) ∧
    initEventsBindings initState.inner =
      [Binding.resize, Binding.viewportEntry, Binding.viewportBottom] ∧
    Binding.parallax ∉ initEventsBindings initState.inner := by
  refine ⟨?_, rfl, by decide⟩
  intro s hs
  obtain ⟨-, -, -, -, -, -, -, -, i9⟩ := reachable_inv hs
  exact i9

end PixelImage
